import Mathlib

set_option maxRecDepth 8000

/-!
Shallow embedding of `src/data_structures/b_node.py` and
`src/data_structures/b_tree.py` (adenDB).

A Python `bytearray` is modelled as a `ByteBuf`: its length together with the
byte stored at each position (`bytearray(4096)` has length 4096 and byte 0
everywhere).  The functions of the `struct` module are modelled
byte-for-byte: `unpack_from('<H', d, p)` reads two little-endian bytes and
fails with `struct.error` when the buffer is too short, `pack_into`
additionally fails when the value does not fit the format.  Python `assert`
failures are `PyErr.assertionError`; every fallible operation returns
`Except PyErr`.
-/

/-- The Python exceptions that the embedded code can raise.
`oversized` stands for the FormatViolation / Oversized error of the spec. -/
inductive PyErr where
  | assertionError
  | structError
  | typeError
  | oversized
deriving DecidableEq

instance {ε α : Type} [DecidableEq ε] [DecidableEq α] : DecidableEq (Except ε α) := fun x y =>
  match x, y with
  | .error e, .error f =>
    if h : e = f then .isTrue (congrArg Except.error h)
    else .isFalse (fun c => h (Except.error.inj c))
  | .error _, .ok _ => .isFalse (fun c => Except.noConfusion c)
  | .ok _, .error _ => .isFalse (fun c => Except.noConfusion c)
  | .ok a, .ok b =>
    if h : a = b then .isTrue (congrArg Except.ok h)
    else .isFalse (fun c => h (Except.ok.inj c))

/-- A Python `bytearray`: its length and the byte at each position.
Positions ≥ `len` are never read by the embedded code (every `struct` access
is bounds-checked first, as CPython does). -/
structure ByteBuf where
  len : Nat
  byteAt : Nat → Nat

/-- `d[p] = b` for a bytearray: writes only inside the buffer. -/
def setByte (d : ByteBuf) (p b : Nat) : ByteBuf :=
  ⟨d.len, fun q => if p < d.len ∧ q = p then b else d.byteAt q⟩

/-- Write the byte list `bs` into `d` starting at `pos`. -/
def setBytes : ByteBuf → Nat → List Nat → ByteBuf
  | d, _, [] => d
  | d, pos, b :: bs => setBytes (setByte d pos b) (pos + 1) bs

/-- Little-endian read of `k` bytes starting at `pos` (the bounds check is
done by `unpackU16`/`unpackU64` before calling this). -/
def readLE : ByteBuf → Nat → Nat → Nat
  | _, _, 0 => 0
  | d, pos, k + 1 => d.byteAt pos + 256 * readLE d (pos + 1) k

/-- The `k` little-endian bytes of `v` (as written by `struct.pack`). -/
def leBytesN : Nat → Nat → List Nat
  | 0, _ => []
  | k + 1, v => v % 256 :: leBytesN k (v / 256)

/-- `struct.unpack_from('<H', d, pos)[0]`: fails with `struct.error` when
fewer than 2 bytes remain. -/
def unpackU16 (d : ByteBuf) (pos : Nat) : Except PyErr Nat :=
  if pos + 2 ≤ d.len then .ok (readLE d pos 2) else .error .structError

/-- `struct.unpack_from('<Q', d, pos)[0]`. -/
def unpackU64 (d : ByteBuf) (pos : Nat) : Except PyErr Nat :=
  if pos + 8 ≤ d.len then .ok (readLE d pos 8) else .error .structError

/-- `struct.pack_into('<H', d, pos, v)`: fails with `struct.error` when the
value is out of the `ushort` range `0 ≤ v < 65536` (the value may be a
negative Python int in `append_range`, hence `Int`; under `0 ≤ v` the upper
bound is stated as `v.toNat < 65536`, which is equivalent) or the buffer is
too short. -/
def packU16 (d : ByteBuf) (pos : Nat) (v : Int) : Except PyErr ByteBuf :=
  if 0 ≤ v ∧ v.toNat < 65536 ∧ pos + 2 ≤ d.len then
    .ok (setBytes d pos (leBytesN 2 v.toNat))
  else .error .structError

/-- `struct.pack_into('<Q', d, pos, v)`. -/
def packU64 (d : ByteBuf) (pos : Nat) (v : Nat) : Except PyErr ByteBuf :=
  if v < 2 ^ 64 ∧ pos + 8 ≤ d.len then
    .ok (setBytes d pos (leBytesN 8 v))
  else .error .structError

/-- Python slice `d[a : b]` (clamps to the buffer, never fails). -/
def pySlice (d : ByteBuf) (a b : Nat) : List Nat :=
  (List.range (min b d.len - min a d.len)).map (fun k => d.byteAt (min a d.len + k))

/-- Python bytearray slice assignment `d[start : start + cnt] = repl`:
replaces the (clamped) slice `[lo, hi)` with `repl`, so the buffer length
becomes `lo + repl.length + (d.len - hi)` — bytearray slice assignment
resizes when `repl` is not the length of the replaced slice. -/
def spliceAssign (d : ByteBuf) (start cnt : Nat) (repl : List Nat) : ByteBuf :=
  ⟨min start d.len + repl.length + (d.len - min (start + cnt) d.len),
   fun q =>
     if q < min start d.len then d.byteAt q
     else if q < min start d.len + repl.length then repl.getD (q - min start d.len) 0
     else d.byteAt (q - (min start d.len + repl.length) + min (start + cnt) d.len)⟩

/-- Python `bytes` comparison `a < b` (lexicographic, shorter prefix first). -/
def bytesLt : List Nat → List Nat → Bool
  | [], [] => false
  | [], _ :: _ => true
  | _ :: _, [] => false
  | a :: as, b :: bs => if a < b then true else if b < a then false else bytesLt as bs

/-! ## The node codec (`class BNode`) -/

inductive NodeType where
  | INTERNAL
  | LEAF
deriving DecidableEq

/-- `NodeType.INTERNAL.value = 1`, `NodeType.LEAF.value = 2`. -/
def NodeType.value : NodeType → Nat
  | .INTERNAL => 1
  | .LEAF => 2

def HEADER_SIZE : Nat := 4
def POINTER_SIZE : Nat := 8
def MAX_KEY_SIZE : Nat := 1000
def MAX_VAL_SIZE : Nat := 3000
def PAGE_SIZE : Nat := 4096

/-- A `BNode` is its page buffer (`self.data`). -/
structure BNode where
  data : ByteBuf

/-- A full page whose first bytes are `l` and whose remaining bytes are 0:
the image of `bytearray(4096)` after writing `l` at position 0 (used only
with `l.length ≤ PAGE_SIZE`). -/
def padPage (l : List Nat) : ByteBuf := ⟨PAGE_SIZE, fun q => l.getD q 0⟩

/-- `BNode.__init__`: `self.data = bytearray(self.PAGE_SIZE)`. -/
def mkBNode : BNode := ⟨padPage []⟩

/-- `get_node_type`: 2-byte little-endian field at byte 0. -/
def get_node_type (node : BNode) : Except PyErr Nat := unpackU16 node.data 0

/-- `get_num_keys`: 2-byte little-endian field at byte 2. -/
def get_num_keys (node : BNode) : Except PyErr Nat := unpackU16 node.data 2

/-- `write_metadata(node_type, num_keys)`: packs the two header fields. -/
def write_metadata (node : BNode) (node_type num_keys : Nat) : Except PyErr BNode :=
  match packU16 node.data 0 (node_type : Int) with
  | .error e => .error e
  | .ok d1 =>
    match packU16 d1 2 (num_keys : Int) with
    | .error e => .error e
    | .ok d2 => .ok ⟨d2⟩

/-- `get_pointer(idx)`: asserts `idx < get_num_keys()`, then reads the u64 at
`HEADER_SIZE + POINTER_SIZE * idx`. -/
def get_pointer (node : BNode) (idx : Nat) : Except PyErr Nat :=
  match get_num_keys node with
  | .error e => .error e
  | .ok n =>
    if idx < n then unpackU64 node.data (HEADER_SIZE + POINTER_SIZE * idx)
    else .error .assertionError

/-- `set_pointer(idx, val)`: asserts `idx < get_num_keys()`, then packs the
u64 at `HEADER_SIZE + POINTER_SIZE * idx`. -/
def set_pointer (node : BNode) (idx val : Nat) : Except PyErr BNode :=
  match get_num_keys node with
  | .error e => .error e
  | .ok n =>
    if idx < n then
      match packU64 node.data (HEADER_SIZE + POINTER_SIZE * idx) val with
      | .error e => .error e
      | .ok d => .ok ⟨d⟩
    else .error .assertionError

/-- `get_offset_position(idx)`: Python computes
`HEADER_SIZE + num_keys * POINTER_SIZE + 2 * (idx - 1)` over ℤ; since
`HEADER_SIZE + num_keys * POINTER_SIZE + 2 * idx ≥ 4 > 2` the truncated
ℕ subtraction below yields exactly the same value, for `idx = 0` included
(where Python's result is `HEADER_SIZE + num_keys * POINTER_SIZE - 2`). -/
def get_offset_position (node : BNode) (idx : Nat) : Except PyErr Nat :=
  match get_num_keys node with
  | .error e => .error e
  | .ok n => .ok (HEADER_SIZE + n * POINTER_SIZE + 2 * idx - 2)

/-- `get_offset(idx)`: asserts `idx > 0`, then reads the u16 at
`get_offset_position(idx)`. -/
def get_offset (node : BNode) (idx : Nat) : Except PyErr Nat :=
  if 0 < idx then
    match get_offset_position node idx with
    | .error e => .error e
    | .ok pos => unpackU16 node.data pos
  else .error .assertionError

/-- `set_offset(idx, offset)`: NO bounds check on `idx` (unlike `get_offset`);
packs the u16 at `get_offset_position(idx)`.  `offset` is an `Int` because
`append_range` computes it by Python int arithmetic that can go negative. -/
def set_offset (node : BNode) (idx : Nat) (offset : Int) : Except PyErr BNode :=
  match get_offset_position node idx with
  | .error e => .error e
  | .ok pos =>
    match packU16 node.data pos offset with
    | .error e => .error e
    | .ok d => .ok ⟨d⟩

/-- `get_kv_start(idx)`: asserts `idx ≤ get_num_keys()`, then returns
`HEADER_SIZE + num_keys * POINTER_SIZE + 2 * num_keys + get_offset(idx)`.
Note that it calls `get_offset(idx)` unguarded, whose `idx > 0` assertion
fires for `idx = 0`. -/
def get_kv_start (node : BNode) (idx : Nat) : Except PyErr Nat :=
  match get_num_keys node with
  | .error e => .error e
  | .ok n =>
    if idx ≤ n then
      match get_offset node idx with
      | .error e => .error e
      | .ok off => .ok (HEADER_SIZE + n * POINTER_SIZE + 2 * n + off)
    else .error .assertionError

/-- `get_key(idx)`: asserts `idx < get_num_keys()`, reads the 2-byte key
length at `get_kv_start(idx)` and slices the key bytes
(`self.data[pos + 4 : pos + 4 + key_length]`). -/
def get_key (node : BNode) (idx : Nat) : Except PyErr (List Nat) :=
  match get_num_keys node with
  | .error e => .error e
  | .ok n =>
    if idx < n then
      match get_kv_start node idx with
      | .error e => .error e
      | .ok pos =>
        match unpackU16 node.data pos with
        | .error e => .error e
        | .ok klen => .ok (pySlice node.data (pos + 4) (pos + 4 + klen))
    else .error .assertionError

/-- `get_value(idx)`: asserts `idx < get_num_keys()`, reads both length
fields and slices the value bytes (empty when the value length is 0). -/
def get_value (node : BNode) (idx : Nat) : Except PyErr (List Nat) :=
  match get_num_keys node with
  | .error e => .error e
  | .ok n =>
    if idx < n then
      match get_kv_start node idx with
      | .error e => .error e
      | .ok pos =>
        match unpackU16 node.data pos with
        | .error e => .error e
        | .ok klen =>
          match unpackU16 node.data (pos + 2) with
          | .error e => .error e
          | .ok vlen =>
            if vlen = 0 then .ok []
            else .ok (pySlice node.data (pos + 4 + klen) (pos + 4 + klen + vlen))
    else .error .assertionError

/-- `get_data_end()`: `get_kv_start(get_num_keys())`. -/
def get_data_end (node : BNode) : Except PyErr Nat :=
  match get_num_keys node with
  | .error e => .error e
  | .ok n => get_kv_start node n

/-- The body of `node_lookup`'s loop `for i in range(1, n_keys)`: `rem` is the
number of remaining iterations (`n_keys - i`), `pos` the running result.
`get_key(i) > key` is `bytesLt key (get_key i)` (Python bytes order). -/
def lookup_go (node : BNode) (key : List Nat) : Nat → Nat → Nat → Except PyErr Nat
  | 0, _, pos => .ok pos
  | rem + 1, i, pos =>
    match get_key node i with
    | .error e => .error e
    | .ok k => if bytesLt key k then .ok pos else lookup_go node key rem (i + 1) i

/-- `node_lookup(key)`: returns 0 for an empty node, otherwise runs the scan
`pos = 0; for i in range(1, n_keys): if get_key(i) > key: break; pos = i`. -/
def node_lookup (node : BNode) (key : List Nat) : Except PyErr Nat :=
  match get_num_keys node with
  | .error e => .error e
  | .ok n => if n = 0 then .ok 0 else lookup_go node key (n - 1) 1 0

/-! ## The node builder (`append_range`, `leaf_insert`) -/

/-- The pointer-copying loop of `append_range`
(`for i in range(num_pairs): new.set_pointer(start_new + i, self.get_pointer(start_old + i))`),
`self = src`, `rem` iterations remaining, current loop variable `i`. -/
def copyPtrLoop (src : BNode) (start_new start_old : Nat) :
    Nat → Nat → BNode → Except PyErr BNode
  | 0, _, dst => .ok dst
  | rem + 1, i, dst =>
    match get_pointer src (start_old + i) with
    | .error e => .error e
    | .ok p =>
      match set_pointer dst (start_new + i) p with
      | .error e => .error e
      | .ok dst1 => copyPtrLoop src start_new start_old rem (i + 1) dst1

/-- The offset-copying loop of `append_range`
(`for i in range(1, num_pairs + 1): offset = start_offset_new + self.get_offset(start_old + i) - start_offset_old; new.set_offset(start_new + i, offset)`).
The offset is computed by Python int arithmetic, hence over `Int`. -/
def copyOffLoop (src : BNode) (start_new start_old : Nat) (offNew offOld : Nat) :
    Nat → Nat → BNode → Except PyErr BNode
  | 0, _, dst => .ok dst
  | rem + 1, i, dst =>
    match get_offset src (start_old + i) with
    | .error e => .error e
    | .ok so =>
      match set_offset dst (start_new + i) ((offNew : Int) + (so : Int) - (offOld : Int)) with
      | .error e => .error e
      | .ok dst1 => copyOffLoop src start_new start_old offNew offOld rem (i + 1) dst1

/-- `append_range(self, new_node, start_new, start_old, num_pairs)` with
`self = src` (the source of the copy) and `new_node = dst`.  Mirrors the
source order exactly: the two asserts, the `num_pairs == 0` early return,
the pointer loop, the two base-offset reads
(`new_node.get_offset(start_new)` and `self.get_offset(start_old)`), the
offset loop, then the raw KV slice assignment
`new.data[start_kv_new : start_kv_new + (end_kv_old - start_kv_old)] = self.data[start_kv_old : end_kv_old]`.
(The Python method would alias `src` and `dst` if called on the same object;
the claims only concern distinct nodes, which this embedding represents.) -/
def append_range (src dst : BNode) (start_new start_old num_pairs : Nat) :
    Except PyErr BNode :=
  match get_num_keys src with
  | .error e => .error e
  | .ok nOld =>
    if start_old + num_pairs ≤ nOld then
      match get_num_keys dst with
      | .error e => .error e
      | .ok nNew =>
        if start_new + num_pairs ≤ nNew then
          if num_pairs = 0 then .ok dst
          else
            match copyPtrLoop src start_new start_old num_pairs 0 dst with
            | .error e => .error e
            | .ok dst1 =>
              match get_offset dst1 start_new with
              | .error e => .error e
              | .ok offNew =>
                match get_offset src start_old with
                | .error e => .error e
                | .ok offOld =>
                  match copyOffLoop src start_new start_old offNew offOld num_pairs 1 dst1 with
                  | .error e => .error e
                  | .ok dst2 =>
                    match get_kv_start src start_old with
                    | .error e => .error e
                    | .ok a =>
                      match get_kv_start src (start_old + num_pairs) with
                      | .error e => .error e
                      | .ok b =>
                        match get_kv_start dst2 start_new with
                        | .error e => .error e
                        | .ok c =>
                          .ok ⟨spliceAssign dst2.data c (b - a) (pySlice src.data a b)⟩
        else .error .assertionError
    else .error .assertionError

/-- `leaf_insert(old_node, idx, key, val)` as written in
`src/data_structures/b_node.py` lines 134-146.  The body first evaluates
`old_node.get_num_keys() + 1` and runs
`new_node.write_metadata(NodeType.LEAF.value, ...)` (both fallible; errors
propagate).  The next statement is
`new_node.append_range(new_node, old_node, 0, 0, idx)`, which passes five
positional arguments to `append_range`, a method taking only four besides
`self` (`new_node, start_new, start_old, num_pairs`): CPython raises
`TypeError` at this call, before any entry is copied.  (The following
statement, `new_node.append_kv(idx, key, val)`, would also fail:
no `append_kv` method is defined anywhere under src/.) -/
def leaf_insert (old_node : BNode) (idx : Nat) (key val : List Nat) :
    Except PyErr BNode :=
  match get_num_keys old_node with
  | .error e => .error e
  | .ok c =>
    match write_metadata mkBNode NodeType.LEAF.value (c + 1) with
    | .error e => .error e
    | .ok _new_node => .error .typeError

/-- Modelled from the spec: the offset of entry 0, "implicitly 0" (spec §3 and
§4.1: "`get_offset(0)` is disallowed (index must be ≥ 1); it is defined to be
0 implicitly"), used only by the spec-modelled `append_kv` below. -/
def offsetOrZero (node : BNode) (idx : Nat) : Except PyErr Nat :=
  if idx = 0 then .ok 0 else get_offset node idx

/-- Modelled from the spec: the KV cursor `kv_start(idx)` with the implicit
zero offset for entry 0 (spec §4.1). -/
def kv_start_spec (node : BNode) (idx : Nat) : Except PyErr Nat :=
  match get_num_keys node with
  | .error e => .error e
  | .ok n =>
    match offsetOrZero node idx with
    | .error e => .error e
    | .ok off => .ok (HEADER_SIZE + n * POINTER_SIZE + 2 * n + off)

/-- Modelled from the spec: `BNode.append_kv` is called by `leaf_insert`
(src/data_structures/b_node.py line 142) but is not defined anywhere under
src/.  Spec §4.2: "`append_kv(dst_node, idx, key, value)`: writes one pointer
slot (0 for a leaf — leaves carry no child pointers, the field is simply
unused/zero), writes key/value length-prefixed bytes at the current KV
cursor, and updates the offset table entry for `idx+1` to reflect the new
cumulative length.  Fails (Oversized error) if `len(key) > 1000` or
`len(value) > 3000`"; per §7 the size check rejects "before any page is
touched", so it comes first. -/
def append_kv (node : BNode) (idx : Nat) (key val : List Nat) : Except PyErr BNode :=
  if MAX_KEY_SIZE < key.length ∨ MAX_VAL_SIZE < val.length then .error .oversized
  else
    match set_pointer node idx 0 with
    | .error e => .error e
    | .ok node1 =>
      match kv_start_spec node1 idx with
      | .error e => .error e
      | .ok pos =>
        match packU16 node1.data pos (key.length : Int) with
        | .error e => .error e
        | .ok d1 =>
          match packU16 d1 (pos + 2) (val.length : Int) with
          | .error e => .error e
          | .ok d2 =>
            let d3 := spliceAssign d2 (pos + 4) key.length key
            let d4 := spliceAssign d3 (pos + 4 + key.length) val.length val
            match offsetOrZero node1 idx with
            | .error e => .error e
            | .ok off =>
              set_offset ⟨d4⟩ (idx + 1)
                ((off : Int) + 4 + (key.length : Int) + (val.length : Int))

/-! ## The tree layer (`class BTree`) -/

/-- A call to one of the three collaborator callables handed to
`BTree.__init__` (`loader`, `allocator`, `invalidator`). -/
inductive TreeOp where
  | load : Nat → TreeOp
  | create : Nat → TreeOp
  | invalidate : Nat → TreeOp
deriving DecidableEq

/-- The state left by `BTree.__init__` together with the trace of collaborator
calls it makes. -/
structure BTreeState where
  root_offset : Nat
  calls : List TreeOp
deriving DecidableEq

/-- `BTree.__init__(root_offset, loader, allocator, invalidator)` from
`src/data_structures/b_tree.py`: stores `root_offset`, then calls
`self.load_node(root_offset)`, `self.create_node(root_offset)`, and
`self.invalidate_node(root_offset)` in that order; the loaded and created
nodes are bound to locals and never used, and `self.root_offset` is never
updated.  Modelled as the trace of collaborator calls. -/
def btree_init (root_offset : Nat) : BTreeState :=
  ⟨root_offset, [TreeOp.load root_offset, TreeOp.create root_offset,
    TreeOp.invalidate root_offset]⟩

/-! ## Concrete nodes used by witnesses and counterexamples -/

/-- An empty leaf: fresh page after `write_metadata(LEAF, 0)`. -/
def emptyLeaf : BNode := ⟨padPage [2, 0]⟩

/-- A leaf with `count = 1` and one serialized entry `(b"a", b"1")`:
header `[2,0,1,0]`, one zero pointer, offset table `[6,0]` (the entry is
`4 + 1 + 1 = 6` bytes), then the KV bytes `[1,0,1,0,97,49]`. -/
def leafOne : BNode :=
  ⟨padPage [2, 0, 1, 0,
    0, 0, 0, 0, 0, 0, 0, 0,
    6, 0,
    1, 0, 1, 0, 97, 49]⟩

/-- A destination leaf with only the metadata written: `count = 1`. -/
def dstOne : BNode := ⟨padPage [2, 0, 1, 0]⟩

/-- A leaf with `count = 2` and entries `(b"a", b"1")`, `(b"c", b"3")`:
header, two zero pointers, offsets `[6,0, 12,0]`, then the two 6-byte
KV records. -/
def leafTwo : BNode :=
  ⟨padPage [2, 0, 2, 0,
    0, 0, 0, 0, 0, 0, 0, 0,
    0, 0, 0, 0, 0, 0, 0, 0,
    6, 0, 12, 0,
    1, 0, 1, 0, 97, 49,
    1, 0, 1, 0, 99, 51]⟩

/-- A node whose header claims `count = 512` (little-endian `[0, 2]`),
obtained by `write_metadata(LEAF, 512)` on a fresh page: the pointer array
alone would then occupy bytes 4..4100 of the 4096-byte page. -/
def node512 : BNode := ⟨padPage [2, 0, 0, 2]⟩

/-- A 1001-byte key, one byte over `MAX_KEY_SIZE`. -/
def bigKey : List Nat := List.replicate 1001 97

/-! ## Byte-level lemmas -/

theorem len_setByte (d : ByteBuf) (p b : Nat) : (setByte d p b).len = d.len := rfl

theorem byteAt_setByte_self (d : ByteBuf) (p b : Nat) (h : p < d.len) :
    (setByte d p b).byteAt p = b := by
  simp [setByte, h]

theorem byteAt_setByte_ne (d : ByteBuf) (p q b : Nat) (h : q ≠ p) :
    (setByte d p b).byteAt q = d.byteAt q := by
  simp only [setByte]
  rw [if_neg (fun hc => h hc.2)]

theorem len_setBytes (bs : List Nat) : ∀ (d : ByteBuf) (p : Nat),
    (setBytes d p bs).len = d.len := by
  induction bs with
  | nil => intro d p; rfl
  | cons b bs ih =>
    intro d p
    show (setBytes (setByte d p b) (p + 1) bs).len = d.len
    rw [ih]
    rfl

theorem byteAt_setBytes_lt (bs : List Nat) : ∀ (d : ByteBuf) (p q : Nat), q < p →
    (setBytes d p bs).byteAt q = d.byteAt q := by
  induction bs with
  | nil => intro d p q _; rfl
  | cons b bs ih =>
    intro d p q hq
    show (setBytes (setByte d p b) (p + 1) bs).byteAt q = d.byteAt q
    rw [ih (setByte d p b) (p + 1) q (by omega), byteAt_setByte_ne d p q b (by omega)]

theorem byteAt_setBytes_ge (bs : List Nat) : ∀ (d : ByteBuf) (p q : Nat),
    p + bs.length ≤ q → (setBytes d p bs).byteAt q = d.byteAt q := by
  induction bs with
  | nil => intro d p q _; rfl
  | cons b bs ih =>
    intro d p q hq
    simp only [List.length_cons] at hq
    show (setBytes (setByte d p b) (p + 1) bs).byteAt q = d.byteAt q
    rw [ih (setByte d p b) (p + 1) q (by omega), byteAt_setByte_ne d p q b (by omega)]

theorem byteAt_setBytes_at (bs : List Nat) : ∀ (d : ByteBuf) (p k : Nat),
    k < bs.length → p + bs.length ≤ d.len →
    (setBytes d p bs).byteAt (p + k) = bs.getD k 0 := by
  induction bs with
  | nil => intro d p k hk _; simp at hk
  | cons b bs ih =>
    intro d p k hk hlen
    simp only [List.length_cons] at hk hlen
    cases k with
    | zero =>
      show (setBytes (setByte d p b) (p + 1) bs).byteAt p = b
      rw [byteAt_setBytes_lt bs (setByte d p b) (p + 1) p (by omega),
        byteAt_setByte_self d p b (by omega)]
    | succ k =>
      show (setBytes (setByte d p b) (p + 1) bs).byteAt (p + (k + 1)) = bs.getD k 0
      have harith : p + (k + 1) = (p + 1) + k := by omega
      rw [harith, ih (setByte d p b) (p + 1) k (by omega) (by rw [len_setByte]; omega)]

theorem length_leBytesN (k : Nat) : ∀ v : Nat, (leBytesN k v).length = k := by
  induction k with
  | zero => intro v; rfl
  | succ k ih =>
    intro v
    show (v % 256 :: leBytesN k (v / 256)).length = k + 1
    rw [List.length_cons, ih]

theorem readLE_congr (k : Nat) : ∀ (d1 d2 : ByteBuf) (p : Nat),
    (∀ j, j < k → d1.byteAt (p + j) = d2.byteAt (p + j)) →
    readLE d1 p k = readLE d2 p k := by
  induction k with
  | zero => intro d1 d2 p _; rfl
  | succ k ih =>
    intro d1 d2 p h
    show d1.byteAt p + 256 * readLE d1 (p + 1) k
        = d2.byteAt p + 256 * readLE d2 (p + 1) k
    rw [show d1.byteAt p = d2.byteAt p from by simpa using h 0 (by omega),
      ih d1 d2 (p + 1) (fun j hj => by
        have h3 : p + 1 + j = p + (j + 1) := by omega
        rw [h3]
        exact h (j + 1) (by omega))]

theorem readLE_setBytes (k : Nat) : ∀ (d : ByteBuf) (p v : Nat),
    v < 256 ^ k → p + k ≤ d.len →
    readLE (setBytes d p (leBytesN k v)) p k = v := by
  induction k with
  | zero => intro d p v hv _; simp [Nat.lt_one_iff] at hv; simp [readLE, hv]
  | succ k ih =>
    intro d p v hv hlen
    show readLE (setBytes d p (v % 256 :: leBytesN k (v / 256))) p (k + 1) = v
    show (setBytes d p (v % 256 :: leBytesN k (v / 256))).byteAt p
        + 256 * readLE (setBytes d p (v % 256 :: leBytesN k (v / 256))) (p + 1) k = v
    show (setBytes (setByte d p (v % 256)) (p + 1) (leBytesN k (v / 256))).byteAt p
        + 256 * readLE (setBytes (setByte d p (v % 256)) (p + 1) (leBytesN k (v / 256)))
            (p + 1) k = v
    rw [byteAt_setBytes_lt _ _ _ _ (by omega), byteAt_setByte_self d p _ (by omega),
      ih (setByte d p (v % 256)) (p + 1) (v / 256)
        (by
          refine (Nat.div_lt_iff_lt_mul (by omega : (0:Nat) < 256)).mpr ?_
          calc v < 256 ^ (k + 1) := hv
            _ = 256 ^ k * 256 := by ring)
        (by rw [len_setByte]; omega)]
    exact Nat.mod_add_div v 256

/-- Reading a 2-byte field outside the region written by `setBytes`. -/
theorem unpackU16_setBytes_disjoint (d : ByteBuf) (p : Nat) (bs : List Nat) (q : Nat)
    (h : q + 2 ≤ p ∨ p + bs.length ≤ q) :
    unpackU16 (setBytes d p bs) q = unpackU16 d q := by
  unfold unpackU16
  rw [len_setBytes]
  by_cases hq : q + 2 ≤ d.len
  · rw [if_pos hq, if_pos hq]
    refine congrArg _ (readLE_congr 2 _ _ q (fun j hj => ?_))
    rcases h with h | h
    · exact byteAt_setBytes_lt bs d p (q + j) (by omega)
    · exact byteAt_setBytes_ge bs d p (q + j) (by omega)
  · rw [if_neg hq, if_neg hq]

/-- Transitivity of the Python bytes order. -/
theorem bytesLt_trans : ∀ a b c : List Nat,
    bytesLt a b = true → bytesLt b c = true → bytesLt a c = true := by
  intro a
  induction a with
  | nil =>
    intro b c hab hbc
    cases b with
    | nil => simp [bytesLt] at hab
    | cons y ys =>
      cases c with
      | nil => simp [bytesLt] at hbc
      | cons z zs => simp [bytesLt]
  | cons x xs ih =>
    intro b c hab hbc
    cases b with
    | nil => simp [bytesLt] at hab
    | cons y ys =>
      cases c with
      | nil => simp [bytesLt] at hbc
      | cons z zs =>
        simp only [bytesLt] at hab hbc ⊢
        by_cases hxy : x < y
        · rw [if_pos hxy] at hab
          by_cases hyz : y < z
          · rw [if_pos (by omega)]
          · by_cases hzy : z < y
            · rw [if_neg hyz, if_pos hzy] at hbc; exact absurd hbc (by simp)
            · rw [if_pos (by omega)]
        · by_cases hyx : y < x
          · rw [if_neg hxy, if_pos hyx] at hab; exact absurd hab (by simp)
          · have hxy2 : x = y := by omega
            rw [if_neg hxy, if_neg hyx] at hab
            by_cases hyz : y < z
            · rw [if_pos (by omega)]
            · by_cases hzy : z < y
              · rw [if_neg hyz, if_pos hzy] at hbc; exact absurd hbc (by simp)
              · have hyz2 : y = z := by omega
                rw [if_neg hyz, if_neg hzy] at hbc
                rw [if_neg (by omega), if_neg (by omega)]
                subst hxy2; subst hyz2
                exact ih ys zs hab hbc

/-- Loop invariant for `node_lookup`'s scan: starting at index `i` with
`rem = n - i` iterations left and running result `i - 1`, provided no key
before `i` broke the loop, the scan returns the greatest readable index whose
key is ≤ the search key (0 when there is none). -/
theorem lookup_go_spec (node : BNode) (key : List Nat) (n : Nat) (ks : Nat → List Nat)
    (hk : ∀ i, i < n → 1 ≤ i → get_key node i = .ok (ks i))
    (hinc : ∀ j, j < n → ∀ i, i < j → 1 ≤ i → bytesLt (ks i) (ks j) = true) :
    ∀ rem, ∀ i, 1 ≤ i → i + rem = n →
      (∀ j, j < i → 1 ≤ j → bytesLt key (ks j) = false) →
      ∃ r, lookup_go node key rem i (i - 1) = .ok r ∧
        ((r = 0 ∧ ∀ j, j < n → 1 ≤ j → bytesLt key (ks j) = true) ∨
         (1 ≤ r ∧ r < n ∧ bytesLt key (ks r) = false ∧
          ∀ j, j < n → r < j → bytesLt key (ks j) = true)) := by
  intro rem
  induction rem with
  | zero =>
    intro i h1 hin hnb
    refine ⟨i - 1, rfl, ?_⟩
    by_cases hi1 : i = 1
    · exact Or.inl ⟨by omega, fun j hj hj1 => (by omega : False).elim⟩
    · exact Or.inr ⟨by omega, by omega, hnb (i - 1) (by omega) (by omega),
        fun j hj hji => (by omega : False).elim⟩
  | succ rem ih =>
    intro i h1 hin hnb
    have hi_lt : i < n := by omega
    have hgk := hk i hi_lt h1
    cases hb : bytesLt key (ks i) with
    | true =>
      refine ⟨i - 1, by simp [lookup_go, hgk, hb], ?_⟩
      have hafter : ∀ j, j < n → i - 1 < j → bytesLt key (ks j) = true := by
        intro j hj hij
        have hji : i ≤ j := by omega
        rcases Nat.eq_or_lt_of_le hji with he | hl
        · rw [← he]; exact hb
        · exact bytesLt_trans key (ks i) (ks j) hb (hinc j hj i hl h1)
      by_cases hi1 : i = 1
      · exact Or.inl ⟨by omega, fun j hj hj1 => hafter j hj (by omega)⟩
      · exact Or.inr ⟨by omega, by omega, hnb (i - 1) (by omega) (by omega), hafter⟩
    | false =>
      have step : lookup_go node key (rem + 1) i (i - 1)
          = lookup_go node key rem (i + 1) i := by
        simp [lookup_go, hgk, hb]
      obtain ⟨r, hr, hcase⟩ := ih (i + 1) (by omega) (by omega)
        (fun j hj hj1 => by
          by_cases hji : j = i
          · rw [hji]; exact hb
          · exact hnb j (by omega) hj1)
      exact ⟨r, by rw [step]; exact hr, hcase⟩

/-- Inversion of a successful `packU16`. -/
theorem packU16_ok (d : ByteBuf) (pos : Nat) (v : Int) (d2 : ByteBuf)
    (h : packU16 d pos v = .ok d2) :
    0 ≤ v ∧ v.toNat < 65536 ∧ pos + 2 ≤ d.len ∧ d2 = setBytes d pos (leBytesN 2 v.toNat) := by
  unfold packU16 at h
  by_cases hc : 0 ≤ v ∧ v.toNat < 65536 ∧ pos + 2 ≤ d.len
  · rw [if_pos hc] at h
    exact ⟨hc.1, hc.2.1, hc.2.2, (Except.ok.inj h).symm⟩
  · rw [if_neg hc] at h
    exact Except.noConfusion h

/-- Inversion of a successful `packU64`. -/
theorem packU64_ok (d : ByteBuf) (pos : Nat) (v : Nat) (d2 : ByteBuf)
    (h : packU64 d pos v = .ok d2) :
    v < 2 ^ 64 ∧ pos + 8 ≤ d.len ∧ d2 = setBytes d pos (leBytesN 8 v) := by
  unfold packU64 at h
  by_cases hc : v < 2 ^ 64 ∧ pos + 8 ≤ d.len
  · rw [if_pos hc] at h
    exact ⟨hc.1, hc.2, (Except.ok.inj h).symm⟩
  · rw [if_neg hc] at h
    exact Except.noConfusion h

theorem pow_2_64_eq : (2 : Nat) ^ 64 = 256 ^ 8 := by norm_num

theorem pow_2_16_eq : (2 : Nat) ^ 16 = 256 ^ 2 := by norm_num

/-! ## Claim theorems -/

/-- C1: REFUTED BY THE CODE (code bug).  The claim says
`leaf_insert(old_node, idx, key, value)` returns a new node with
`old_node.count + 1` entries laid out as old entries `[0, idx)`, the new
pair, then old entries `[idx, count)`.  In the source, `leaf_insert`'s call
`new_node.append_range(new_node, old_node, 0, 0, idx)` passes five positional
arguments to the four-parameter method `append_range`, so CPython raises
`TypeError` on every call — here evaluated on an empty leaf at `idx = 0`
with `key = b"a"` and `value = b"1"` — and no node is ever returned
(`append_kv`, called next, does not even exist on `BNode`). -/
theorem leaf_insert_c1 : leaf_insert emptyLeaf 0 [97] [49] = .error .typeError := rfl

/-- C3: REFUTED BY THE CODE (code bug).  The claim (and the spec) say
`get_kv_start(0)` succeeds and returns the start of the KV region because
entry 0's offset is implicitly 0.  In the source, `get_kv_start` calls
`get_offset(0)` unguarded and its `idx > 0` assertion fires: on `leafOne`
(a well-formed one-entry leaf) both `get_kv_start(0)` and therefore
`get_key(0)` raise `AssertionError`, even though `get_kv_start`'s own
`idx ≤ count` assert and `get_key`'s `idx < count` assert admit index 0. -/
theorem get_kv_start_c3 :
    get_kv_start leafOne 0 = .error .assertionError
    ∧ get_key leafOne 0 = .error .assertionError := ⟨rfl, rfl⟩

/-- C4: REFUTED BY THE CODE (code bug).  The claim states the `append_range`
copy contract for all in-range arguments (`src_start + num_pairs ≤ src.count`,
`dst_start + num_pairs ≤ dst.count`).  `leafOne` is a well-formed one-entry
source, `dstOne` a destination with metadata `(LEAF, 1)` written, and
`src_start = dst_start = 0`, `num_pairs = 1` satisfies both preconditions;
yet the copy raises `AssertionError`, because after the pointer loop
`append_range` reads the base offsets via `get_offset(start_new)` /
`get_offset(start_old)`, and `get_offset(0)`'s `idx > 0` assertion fires
(the same missing implicit-zero-offset case as in C3). -/
theorem append_range_c4 :
    append_range leafOne dstOne 0 0 1 = .error .assertionError := rfl

/-- C5: REFUTED BY THE CODE (code bug).  The claim says constructing a
`BTree` over an existing root never invalidates that root, and invalidation
happens only after a replacement image is durably allocated.
`BTree.__init__(5, ...)` keeps `self.root_offset = 5` (the externally-visible
root) yet its call trace ends with `invalidate(5)` — it loads, "creates"
(passing the old root offset, not a new image), and immediately invalidates
the very root it was constructed over. -/
theorem btree_init_c5 :
    (btree_init 5).root_offset = 5
    ∧ (btree_init 5).calls = [TreeOp.load 5, TreeOp.create 5, TreeOp.invalidate 5]
    ∧ TreeOp.invalidate 5 ∈ (btree_init 5).calls := ⟨rfl, rfl, by decide⟩

/-- C6: the spec-modelled `append_kv` (the method is absent from src/) does
fail with the Oversized error on a 1001-byte key and on a 3001-byte value,
before touching any page byte (the size test is the first thing it does).
But the claimed consequence for `leaf_insert` is REFUTED BY THE CODE
(code bug): `leaf_insert` with the over-limit key fails with `TypeError`
from its mis-aritied `append_range` call, never reaching any size check. -/
theorem append_kv_c6 :
    append_kv mkBNode 0 bigKey [] = .error .oversized
    ∧ append_kv mkBNode 0 [] (List.replicate 3001 0) = .error .oversized
    ∧ leaf_insert emptyLeaf 0 bigKey [49] = .error .typeError := by
  refine ⟨?_, ?_, rfl⟩
  · unfold append_kv
    rw [if_pos (Or.inl (by rw [bigKey, List.length_replicate]; decide))]
  · unfold append_kv
    rw [if_pos (Or.inr (by rw [List.length_replicate]; decide))]

/-- C2: CONFIRMED.  For a node whose readable keys (indices `1 ≤ i < count`;
index 0 is never readable, see C3) are strictly increasing in the Python
bytes order, `node_lookup(key)` returns the greatest index `r` whose stored
key is ≤ `key` (`bytesLt key (ks r) = false`, with every later key > `key`),
and returns 0 when the node is empty or no readable key is ≤ `key` — which
also covers the intended greatest-index-0 case. -/
theorem node_lookup_c2 (node : BNode) (key : List Nat) (n : Nat) (ks : Nat → List Nat)
    (hn : get_num_keys node = .ok n)
    (hk : ∀ i, i < n → 1 ≤ i → get_key node i = .ok (ks i))
    (hinc : ∀ j, j < n → ∀ i, i < j → 1 ≤ i → bytesLt (ks i) (ks j) = true) :
    ∃ r, node_lookup node key = .ok r ∧
      ((r = 0 ∧ ∀ j, j < n → 1 ≤ j → bytesLt key (ks j) = true) ∨
       (1 ≤ r ∧ r < n ∧ bytesLt key (ks r) = false ∧
        ∀ j, j < n → r < j → bytesLt key (ks j) = true)) := by
  by_cases h0 : n = 0
  · refine ⟨0, by simp [node_lookup, hn, h0], Or.inl ⟨rfl, fun j hj hj1 => ?_⟩⟩
    exact (by omega : False).elim
  · obtain ⟨r, hr, hcase⟩ := lookup_go_spec node key n ks hk hinc (n - 1) 1 (by omega)
      (by omega) (fun j hj hj1 => (by omega : False).elim)
    refine ⟨r, ?_, hcase⟩
    have hstep : node_lookup node key = lookup_go node key (n - 1) 1 0 := by
      simp [node_lookup, hn, h0]
    rw [hstep]
    exact hr

/-- Witness for C2 on the concrete two-entry leaf `leafTwo` with search key
`b"c" = [99]`: the lookup returns index 1, whose key equals the search key. -/
theorem node_lookup_c2_witness :
    ∃ r, node_lookup leafTwo [99] = .ok r ∧
      ((r = 0 ∧ ∀ j, j < 2 → 1 ≤ j →
          bytesLt [99] ((fun i => if i = 1 then [99] else []) j) = true) ∨
       (1 ≤ r ∧ r < 2 ∧
        bytesLt [99] ((fun i => if i = 1 then [99] else []) r) = false ∧
        ∀ j, j < 2 → r < j →
          bytesLt [99] ((fun i => if i = 1 then [99] else []) j) = true)) :=
  node_lookup_c2 leafTwo [99] 2 (fun i => if i = 1 then [99] else [])
    rfl (by decide) (by decide)

/-- C7: CONFIRMED.  Writing the metadata of a 4096-byte page with a kind in
{Internal = 1, Leaf = 2} and any 16-bit count and reading it back returns
exactly that kind (2-byte little-endian field at byte 0) and count (2-byte
little-endian field at byte 2); and any pointer successfully written with
`set_pointer` reads back unchanged with `get_pointer`. -/
theorem roundtrip_c7 :
    (∀ (node : BNode) (kind count : Nat), node.data.len = PAGE_SIZE →
        (kind = NodeType.INTERNAL.value ∨ kind = NodeType.LEAF.value) → count < 2 ^ 16 →
        ∃ node2, write_metadata node kind count = .ok node2 ∧
          get_node_type node2 = .ok kind ∧ get_num_keys node2 = .ok count)
    ∧ (∀ (node node2 : BNode) (i v : Nat),
        set_pointer node i v = .ok node2 → get_pointer node2 i = .ok v) := by
  have e3 : PAGE_SIZE = 4096 := rfl
  have h16 : (2 : Nat) ^ 16 = 65536 := by norm_num
  have h256 : (256 : Nat) ^ 2 = 65536 := by norm_num
  constructor
  · intro node kind count hlen hkind hcount
    have hk16 : kind < 65536 := by
      rcases hkind with h | h <;> subst h <;> decide
    have hc16 : count < 65536 := by omega
    have h1 : packU16 node.data 0 (kind : Int)
        = .ok (setBytes node.data 0 (leBytesN 2 kind)) := by
      unfold packU16
      rw [if_pos ⟨Int.natCast_nonneg kind, by rw [Int.toNat_natCast]; omega,
        by rw [hlen, e3]; omega⟩]
      rw [Int.toNat_natCast]
    have hd1len : (setBytes node.data 0 (leBytesN 2 kind)).len = PAGE_SIZE := by
      rw [len_setBytes, hlen]
    have h2 : packU16 (setBytes node.data 0 (leBytesN 2 kind)) 2 (count : Int)
        = .ok (setBytes (setBytes node.data 0 (leBytesN 2 kind)) 2 (leBytesN 2 count)) := by
      unfold packU16
      rw [if_pos ⟨Int.natCast_nonneg count, by rw [Int.toNat_natCast]; omega,
        by rw [hd1len, e3]; omega⟩]
      rw [Int.toNat_natCast]
    refine ⟨⟨setBytes (setBytes node.data 0 (leBytesN 2 kind)) 2 (leBytesN 2 count)⟩,
      ?_, ?_, ?_⟩
    · unfold write_metadata
      simp only [h1, h2]
    · show unpackU16 (setBytes (setBytes node.data 0 (leBytesN 2 kind)) 2 (leBytesN 2 count)) 0
          = .ok kind
      unfold unpackU16
      rw [len_setBytes, hd1len]
      rw [if_pos (by rw [e3]; omega)]
      refine congrArg _ ?_
      rw [readLE_congr 2 (setBytes (setBytes node.data 0 (leBytesN 2 kind)) 2 (leBytesN 2 count))
        (setBytes node.data 0 (leBytesN 2 kind)) 0
        (fun j hj => byteAt_setBytes_lt (leBytesN 2 count) _ 2 (0 + j) (by omega))]
      exact readLE_setBytes 2 node.data 0 kind (by omega) (by rw [hlen, e3]; omega)
    · show unpackU16 (setBytes (setBytes node.data 0 (leBytesN 2 kind)) 2 (leBytesN 2 count)) 2
          = .ok count
      unfold unpackU16
      rw [len_setBytes, hd1len]
      rw [if_pos (by rw [e3]; omega)]
      exact congrArg _ (readLE_setBytes 2 (setBytes node.data 0 (leBytesN 2 kind)) 2 count
        (by omega) (by rw [hd1len, e3]; omega))
  · intro node node2 i v hset
    unfold set_pointer at hset
    cases hnk : get_num_keys node with
    | error e =>
      simp only [hnk] at hset
      exact Except.noConfusion hset
    | ok n =>
      simp only [hnk] at hset
      by_cases hi : i < n
      · rw [if_pos hi] at hset
        cases hp : packU64 node.data (HEADER_SIZE + POINTER_SIZE * i) v with
        | error e =>
          simp only [hp] at hset
          exact Except.noConfusion hset
        | ok d =>
          simp only [hp] at hset
          have hnode2 : node2 = ⟨d⟩ := (Except.ok.inj hset).symm
          obtain ⟨hv, hfit, hd⟩ := packU64_ok node.data _ v d hp
          subst hnode2
          unfold get_pointer
          have hnk2 : get_num_keys (⟨d⟩ : BNode) = .ok n := by
            show unpackU16 d 2 = .ok n
            rw [hd, unpackU16_setBytes_disjoint node.data _ _ 2
              (Or.inl (by simp only [HEADER_SIZE, POINTER_SIZE]; omega))]
            exact hnk
          simp only [hnk2]
          rw [if_pos hi]
          show unpackU64 d (HEADER_SIZE + POINTER_SIZE * i) = .ok v
          unfold unpackU64
          rw [hd, len_setBytes, if_pos hfit]
          exact congrArg _ (readLE_setBytes 8 node.data _ v
            (by rw [← pow_2_64_eq]; exact hv) hfit)
      · rw [if_neg hi] at hset
        exact Except.noConfusion hset

/-- Witness for C7: `write_metadata(LEAF = 2, 3)` on a fresh page reads back
kind 2 and count 3, and a pointer written as 77 at slot 0 of `dstOne` reads
back as 77. -/
theorem roundtrip_c7_witness :
    (∃ node2, write_metadata mkBNode 2 3 = .ok node2 ∧
        get_node_type node2 = .ok 2 ∧ get_num_keys node2 = .ok 3)
    ∧ (∃ m, set_pointer dstOne 0 77 = .ok m ∧ get_pointer m 0 = .ok 77) :=
  ⟨roundtrip_c7.1 mkBNode 2 3 rfl (Or.inr rfl) (by norm_num),
    ⟨_, rfl, roundtrip_c7.2 dstOne _ 0 77 rfl⟩⟩

/-- C8: CONFIRMED.  With the index preconditions satisfied, `append_range`
with `num_pairs = 0` passes its two asserts and returns before touching
anything: the destination node is returned unchanged. -/
theorem append_range_zero_c8 (src dst : BNode) (start_new start_old ns nd : Nat)
    (hs : get_num_keys src = .ok ns) (hd : get_num_keys dst = .ok nd)
    (h1 : start_old ≤ ns) (h2 : start_new ≤ nd) :
    append_range src dst start_new start_old 0 = .ok dst := by
  unfold append_range
  simp only [hs, hd]
  rw [if_pos (by omega), if_pos (by omega)]
  simp

/-- Witness for C8: a zero-pair copy from `leafOne` into `dstOne` returns
`dstOne` itself. -/
theorem append_range_zero_c8_witness :
    append_range leafOne dstOne 0 0 0 = .ok dstOne :=
  append_range_zero_c8 leafOne dstOne 0 0 1 1 rfl rfl (by omega) (by omega)

/-- C9 counterexample: the claim "get_pointer(i) and set_pointer(i, id)
succeed exactly when i < count" fails on the code: `node512` has
`count = 512` and `511 < 512`, yet both operations raise `struct.error`,
because the 8-byte field at `HEADER_SIZE + 8 * 511 = 4092` runs past the
4096-byte page (`unpack_from`/`pack_into` require 4100 bytes). -/
theorem pointer_bounds_c9_cex :
    get_num_keys node512 = .ok 512
    ∧ get_pointer node512 511 = .error .structError
    ∧ set_pointer node512 511 7 = .error .structError := ⟨rfl, rfl, rfl⟩

/-- C9 (amended): CORRECTED.  `get_pointer(i)`/`set_pointer(i, id)` fail with
the out-of-bounds `AssertionError` for every `i ≥ count` without touching the
buffer; for `i < count` they access the 8-byte field at
`HEADER_SIZE + POINTER_SIZE * i` — succeeding when that field lies within the
4096-byte page (and, for `set_pointer`, the value fits 64 bits), and failing
with `struct.error` when the field runs past the page. -/
theorem pointer_bounds_c9 (node : BNode) (i n : Nat)
    (hlen : node.data.len = PAGE_SIZE) (hn : get_num_keys node = .ok n) :
    (n ≤ i → get_pointer node i = .error .assertionError ∧
        ∀ v, set_pointer node i v = .error .assertionError)
    ∧ (i < n → HEADER_SIZE + POINTER_SIZE * i + POINTER_SIZE ≤ PAGE_SIZE →
        get_pointer node i = .ok (readLE node.data (HEADER_SIZE + POINTER_SIZE * i) 8)
        ∧ ∀ v, v < 2 ^ 64 →
            set_pointer node i v =
              .ok ⟨setBytes node.data (HEADER_SIZE + POINTER_SIZE * i) (leBytesN 8 v)⟩)
    ∧ (i < n → PAGE_SIZE < HEADER_SIZE + POINTER_SIZE * i + POINTER_SIZE →
        get_pointer node i = .error .structError ∧
          ∀ v, set_pointer node i v = .error .structError) := by
  have e1 : HEADER_SIZE = 4 := rfl
  have e2 : POINTER_SIZE = 8 := rfl
  have e3 : PAGE_SIZE = 4096 := rfl
  refine ⟨fun hni => ⟨?_, fun v => ?_⟩, fun hi hfit => ⟨?_, fun v hv => ?_⟩,
    fun hi hbig => ⟨?_, fun v => ?_⟩⟩
  · unfold get_pointer
    simp only [hn]
    rw [if_neg (by omega)]
  · unfold set_pointer
    simp only [hn]
    rw [if_neg (by omega)]
  · unfold get_pointer
    simp only [hn]
    rw [if_pos hi]
    unfold unpackU64
    rw [if_pos (by rw [hlen]; rw [e1, e2, e3] at hfit ⊢; omega)]
  · unfold set_pointer
    simp only [hn]
    rw [if_pos hi]
    have hp : packU64 node.data (HEADER_SIZE + POINTER_SIZE * i) v
        = .ok (setBytes node.data (HEADER_SIZE + POINTER_SIZE * i) (leBytesN 8 v)) := by
      unfold packU64
      rw [if_pos ⟨hv, by rw [hlen]; rw [e1, e2, e3] at hfit ⊢; omega⟩]
    rw [hp]
  · unfold get_pointer
    simp only [hn]
    rw [if_pos hi]
    unfold unpackU64
    rw [if_neg (by rw [hlen]; rw [e1, e2, e3] at hbig ⊢; omega)]
  · unfold set_pointer
    simp only [hn]
    rw [if_pos hi]
    have hp : packU64 node.data (HEADER_SIZE + POINTER_SIZE * i) v = .error .structError := by
      unfold packU64
      rw [if_neg (by
        intro hc
        have hc2 := hc.2
        rw [hlen] at hc2
        rw [e1, e2, e3] at hbig hc2
        omega)]
    rw [hp]

/-- Witness for C9 on `dstOne` (`count = 1`): index 5 is rejected with the
assertion error, and index 0 reads the pointer field at byte 4 and writes it
back successfully. -/
theorem pointer_bounds_c9_witness :
    get_pointer dstOne 5 = .error .assertionError
    ∧ get_pointer dstOne 0 = .ok (readLE dstOne.data (HEADER_SIZE + POINTER_SIZE * 0) 8)
    ∧ set_pointer dstOne 0 77
        = .ok ⟨setBytes dstOne.data (HEADER_SIZE + POINTER_SIZE * 0) (leBytesN 8 77)⟩ :=
  ⟨((pointer_bounds_c9 dstOne 5 1 rfl rfl).1 (by omega)).1,
    ((pointer_bounds_c9 dstOne 0 1 rfl rfl).2.1 (by omega) (by decide)).1,
    ((pointer_bounds_c9 dstOne 0 1 rfl rfl).2.1 (by omega) (by decide)).2 77 (by decide)⟩

/-- C10 counterexample: the claim says `set_offset(0, off)` never fails; but
on `node512` (header count 512) the write position is
`HEADER_SIZE + 512 * 8 - 2 = 4098`, past the 4096-byte page, so
`pack_into` raises `struct.error`. -/
theorem set_offset_zero_c10_cex :
    get_num_keys node512 = .ok 512
    ∧ set_offset node512 0 (17 : Int) = .error .structError := ⟨rfl, rfl⟩

/-- C10 (amended): CORRECTED.  `set_offset` has no `idx ≥ 1` check: for any
node with `count ≤ 511` (so the 2-byte write fits the page) and any 16-bit
offset value, `set_offset(0, off)` succeeds and writes 2 bytes at
`HEADER_SIZE + count * POINTER_SIZE - 2` — a position strictly before the
offset table: inside the header's count field when `count = 0` (the count
then reads back as `off`), and inside the last pointer slot when
`count ≥ 1` — silently corrupting the node image.  (For `count ≥ 512` the
write fails with `struct.error` instead, see the counterexample.) -/
theorem set_offset_zero_c10 (node : BNode) (n : Nat)
    (hlen : node.data.len = PAGE_SIZE) (hn : get_num_keys node = .ok n)
    (hsmall : n ≤ 511) (off : Nat) (hoff : off < 2 ^ 16) :
    set_offset node 0 (off : Int)
        = .ok ⟨setBytes node.data (HEADER_SIZE + n * POINTER_SIZE - 2) (leBytesN 2 off)⟩
    ∧ HEADER_SIZE + n * POINTER_SIZE - 2 < HEADER_SIZE + n * POINTER_SIZE
    ∧ (n = 0 → HEADER_SIZE + n * POINTER_SIZE - 2 = 2 ∧
        get_num_keys (⟨setBytes node.data (HEADER_SIZE + n * POINTER_SIZE - 2)
          (leBytesN 2 off)⟩ : BNode) = .ok off)
    ∧ (1 ≤ n → HEADER_SIZE + POINTER_SIZE * (n - 1) ≤ HEADER_SIZE + n * POINTER_SIZE - 2
        ∧ HEADER_SIZE + n * POINTER_SIZE - 2 + 2 ≤ HEADER_SIZE + POINTER_SIZE * n) := by
  have e1 : HEADER_SIZE = 4 := rfl
  have e2 : POINTER_SIZE = 8 := rfl
  have e3 : PAGE_SIZE = 4096 := rfl
  have h16 : (2 : Nat) ^ 16 = 65536 := by norm_num
  have h256 : (256 : Nat) ^ 2 = 65536 := by norm_num
  have hpos_eq : HEADER_SIZE + n * POINTER_SIZE + 2 * 0 - 2
      = HEADER_SIZE + n * POINTER_SIZE - 2 := by
    rw [e1, e2]; omega
  refine ⟨?_, ?_, ?_, ?_⟩
  · unfold set_offset get_offset_position
    simp only [hn]
    rw [hpos_eq]
    have hp : packU16 node.data (HEADER_SIZE + n * POINTER_SIZE - 2) (off : Int)
        = .ok (setBytes node.data (HEADER_SIZE + n * POINTER_SIZE - 2) (leBytesN 2 off)) := by
      unfold packU16
      rw [if_pos ⟨Int.natCast_nonneg off, by rw [Int.toNat_natCast]; omega,
        by rw [hlen]; rw [e1, e2, e3]; omega⟩]
      rw [Int.toNat_natCast]
    rw [hp]
  · rw [e1, e2]; omega
  · intro h0
    subst h0
    have hpos2 : HEADER_SIZE + 0 * POINTER_SIZE - 2 = 2 := by rw [e1, e2]
    refine ⟨hpos2, ?_⟩
    rw [hpos2]
    show unpackU16 (setBytes node.data 2 (leBytesN 2 off)) 2 = .ok off
    unfold unpackU16
    rw [len_setBytes, hlen]
    rw [if_pos (by rw [e3]; omega)]
    exact congrArg _ (readLE_setBytes 2 node.data 2 off (by omega)
      (by rw [hlen, e3]; omega))
  · intro h1n
    constructor
    · rw [e1, e2]; omega
    · rw [e1, e2]; omega

/-- Witness for C10 on `dstOne` (`count = 1`): `set_offset(0, 5)` succeeds
and writes at byte `HEADER_SIZE + 8 - 2 = 10`, inside the only pointer
slot. -/
theorem set_offset_zero_c10_witness :
    set_offset dstOne 0 (5 : Int)
      = .ok ⟨setBytes dstOne.data (HEADER_SIZE + 1 * POINTER_SIZE - 2) (leBytesN 2 5)⟩ :=
  (set_offset_zero_c10 dstOne 1 rfl rfl (by omega) 5 (by norm_num)).1
